import Mathlib

/-!
# Verification of the AG-UI event streaming protocol implementation

Shallow embedding of the core protocol logic of the recipe-agent demo:
the backend agent run loop (`backend/agents/recipe_agent.py`), the
`/shared_state` endpoint (`backend/main.py`), the client SSE stream parser
(`frontend/recipe_app/ag_ui_client.py`) and the client state reducer
(`frontend/recipe_app/state.py`).

Python values flowing through `json.loads` / `dict.get` are modelled by the
`JVal` type below.  Python exceptions (AttributeError / TypeError raised by
attribute access or string concatenation on ill-typed values) are modelled
with `Except String`.  The two external effectful collaborators - the OpenAI
streaming completion API and the `json` library decoder - are passed in as
explicit inputs (`ModelResult` and a `jloads : String → Option JVal`
function), exactly at the boundary where the source consumes them.
-/

set_option autoImplicit false

/-- A JSON value, the type of everything Python-side that flows through
`json.loads`, `dict.get` and event payload dictionaries. -/
inductive JVal where
  | null
  | bool (b : Bool)
  | num (n : Int)
  | str (s : String)
  | arr (elems : List JVal)
  | obj (fields : List (String × JVal))
  deriving Repr, Inhabited

/-- `d.get(key)` on a Python dict (no default): first binding of `key`. -/
def jget (fields : List (String × JVal)) (key : String) : Option JVal :=
  (fields.find? (fun p => p.1 == key)).map (fun p => p.2)

/-- `d.get(key, default)` on a Python dict. -/
def jgetD (fields : List (String × JVal)) (key : String) (dflt : JVal) : JVal :=
  match jget fields key with
  | some v => v
  | none => dflt

/-- Python truthiness of a JSON value (`if x:`). -/
def jTruthy : JVal → Bool
  | .null => false
  | .bool b => b
  | .num n => n != 0
  | .str s => s ≠ ""
  | .arr xs => !xs.isEmpty
  | .obj fs => !fs.isEmpty

example : jTruthy (.obj []) = false := by decide
example : jTruthy (.str "x") = true := by decide

/-! ## Backend data model (`backend/agents/recipe_agent.py`) -/

/-- `Ingredient` dataclass of the backend.  Field values come straight out of
`dict.get` on the parsed tool arguments, so they are arbitrary JSON values
(the dataclass performs no validation). -/
structure IngredientB where
  name : JVal
  quantity : JVal
  unit : JVal
  deriving Repr

/-- `Ingredient.to_dict`. -/
def ingredientToDict (i : IngredientB) : JVal :=
  .obj [("name", i.name), ("quantity", i.quantity), ("unit", i.unit)]

/-- `Recipe` dataclass of the backend.  `ingredients` is a genuine list (the
constructor iterates the supplied value), the remaining fields are stored
unvalidated. -/
structure RecipeB where
  title : JVal
  description : JVal
  ingredients : List IngredientB
  instructions : JVal
  prep_time : JVal
  cook_time : JVal
  servings : JVal
  deriving Repr

/-- `Recipe()` defaults: empty strings, empty lists, `servings=4`. -/
def recipeBDefault : RecipeB :=
  { title := .str "", description := .str "", ingredients := [],
    instructions := .arr [], prep_time := .str "", cook_time := .str "",
    servings := .num 4 }

/-- `Recipe.to_dict`. -/
def recipeToDict (r : RecipeB) : JVal :=
  .obj [("title", r.title), ("description", r.description),
        ("ingredients", .arr (r.ingredients.map ingredientToDict)),
        ("instructions", r.instructions), ("prep_time", r.prep_time),
        ("cook_time", r.cook_time), ("servings", r.servings)]

/-- One entry of `RecipeState.messages`: a `{"role": ..., "content": ...}`
dict.  The role is always a literal string in the source; the content is
whatever the endpoint extracted from the request (an arbitrary JSON value). -/
structure MessageB where
  role : String
  content : JVal
  deriving Repr

def messageToDict (m : MessageB) : JVal :=
  .obj [("role", .str m.role), ("content", m.content)]

/-- `RecipeState` dataclass of the backend (the per-thread shared state). -/
structure RecipeStateB where
  recipe : RecipeB
  messages : List MessageB
  is_generating : Bool
  deriving Repr

/-- `RecipeState()` defaults. -/
def recipeStateBDefault : RecipeStateB :=
  { recipe := recipeBDefault, messages := [], is_generating := false }

/-- `RecipeState.to_dict`. -/
def stateToDict (st : RecipeStateB) : JVal :=
  .obj [("recipe", recipeToDict st.recipe),
        ("messages", .arr (st.messages.map messageToDict)),
        ("is_generating", .bool st.is_generating)]

/-! ## Tool handling (`RecipeAgent._handle_tool_call`) -/

/-- Building one backend `Ingredient` from an element of the `ingredients`
argument: `ing.get(...)` raises `AttributeError` unless `ing` is a dict. -/
def parseIngredientB (j : JVal) : Except String IngredientB :=
  match j with
  | .obj fs =>
      .ok { name := jgetD fs "name" (.str ""),
            quantity := jgetD fs "quantity" (.str ""),
            unit := jgetD fs "unit" (.str "") }
  | _ => .error "AttributeError: ing.get on non-dict"

/-- The list comprehension over `arguments.get("ingredients", [])`: iterating
anything that does not yield dicts raises (TypeError or AttributeError). -/
def parseIngredientsB (j : JVal) : Except String (List IngredientB) :=
  match j with
  | .arr xs => xs.mapM parseIngredientB
  | _ => .error "TypeError: ingredients value is not a list of dicts"

/-- `RecipeAgent._handle_tool_call`.  On `update_recipe` it replaces the
whole recipe with one built from the arguments (full replacement, not a
merge) and returns a success payload; any other tool name yields an
error-marker payload.  A non-dict `arguments` value raises
(`arguments.get` on a non-dict), modelled as `.error`. -/
def handleToolCall (st : RecipeStateB) (tool_name : String) (args : JVal) :
    Except String (RecipeStateB × JVal) :=
  if tool_name == "update_recipe" then
    match args with
    | .obj fs => do
        let ings ← parseIngredientsB (jgetD fs "ingredients" (.arr []))
        let r : RecipeB :=
          { title := jgetD fs "title" (.str ""),
            description := jgetD fs "description" (.str ""),
            ingredients := ings,
            instructions := jgetD fs "instructions" (.arr []),
            prep_time := jgetD fs "prep_time" (.str ""),
            cook_time := jgetD fs "cook_time" (.str ""),
            servings := jgetD fs "servings" (.num 4) }
        .ok ({ st with recipe := r },
             .obj [("success", .bool true),
                   ("message", .str "Receta actualizada correctamente")])
    | _ => .error "AttributeError: arguments.get on non-dict"
  else
    .ok (st, .obj [("error", .str ("Unknown tool: " ++ tool_name))])

/-! ## Protocol events

The timestamp field (`_timestamp()`, real wall-clock time) is the only
payload field not represented: no property below depends on it. -/

/-- One `op` entry of a STATE_DELTA payload as the backend builds it. -/
structure DeltaOpB where
  op : String
  path : String
  value : JVal
  deriving Repr

/-- An AG-UI protocol event as the backend emits it (the dicts yielded by
`RecipeAgent.run`, minus the timestamp field). -/
inductive Event where
  | runStarted (runId : String)
  | stateSnapshot (state : JVal)
  | textMessageStart (messageId : String) (role : String)
  | textMessageContent (messageId : String) (content : String)
  | textMessageEnd (messageId : String)
  | toolCallStart (toolCallId : String) (toolName : String)
  | stateDelta (delta : List DeltaOpB)
  | toolCallEnd (toolCallId : String) (result : JVal)
  | runError (error : String)
  | runFinished (runId : String)
  deriving Repr

/-! ## Model-stream input (`self.client.chat.completions.create(..., stream=True)`)

The OpenAI streaming API is an external collaborator.  A run observes it
as: either the `create` call itself raises, or it yields a list of chunks
and then either finishes normally or raises (the raised message is the
`str(e)` of the exception).  The chunks yielded before the exception are
exactly the prefix the loop processed. -/

/-- `tc.function` of a streamed tool-call fragment. -/
structure FunctionFragment where
  name : Option String
  arguments : Option String
  deriving Repr

/-- One element of `delta.tool_calls`. -/
structure ToolCallFragment where
  index : Nat
  id : Option String
  function : Option FunctionFragment
  deriving Repr

/-- `chunk.choices[0].delta`. -/
structure ChunkDelta where
  content : Option String
  tool_calls : Option (List ToolCallFragment)
  deriving Repr

/-- One streamed chunk; `choices` may be empty (then the loop skips it). -/
structure Chunk where
  choices : List ChunkDelta
  deriving Repr

/-- Outcome of the model call as observed by the run loop. -/
inductive ModelResult where
  | createError (msg : String)
  | stream (chunks : List Chunk) (streamError : Option String)
  deriving Repr

/-! ## The agent run loop (`RecipeAgent.run`) -/

/-- The per-index tool-call accumulator entry (`tool_calls_data[tc_id]`). -/
structure ToolCallData where
  id : String
  name : String
  arguments : String
  deriving Repr

/-- In-place update of the entry keyed `idx` in the insertion-ordered
accumulator (`tool_calls_data[tc_id]["..."] = ...`). -/
def updateEntry (acc : List (Nat × ToolCallData)) (idx : Nat)
    (f : ToolCallData → ToolCallData) : List (Nat × ToolCallData) :=
  acc.map (fun p => if p.1 == idx then (p.1, f p.2) else p)

/-- Processing one element of `delta.tool_calls` (lines 250-263 of
`recipe_agent.py`): create the accumulator entry on first sight of the
index (`tc.id or str(uuid.uuid4())` - an absent or empty id consumes a
fresh uuid), then overwrite the name / append to the argument buffer for
truthy fragments. -/
def procToolFragment (fresh : Nat → String)
    (st : List (Nat × ToolCallData) × Nat) (tc : ToolCallFragment) :
    List (Nat × ToolCallData) × Nat :=
  let (acc, ctr) := st
  let (acc, ctr) :=
    if acc.any (fun p => p.1 == tc.index) then (acc, ctr)
    else
      match tc.id with
      | some i =>
          if i ≠ "" then (acc ++ [(tc.index, ⟨i, "", ""⟩)], ctr)
          else (acc ++ [(tc.index, ⟨fresh ctr, "", ""⟩)], ctr + 1)
      | none => (acc ++ [(tc.index, ⟨fresh ctr, "", ""⟩)], ctr + 1)
  match tc.function with
  | none => (acc, ctr)
  | some f =>
      let acc :=
        match f.name with
        | some n => if n ≠ "" then updateEntry acc tc.index (fun d => { d with name := n }) else acc
        | none => acc
      let acc :=
        match f.arguments with
        | some a =>
            if a ≠ "" then updateEntry acc tc.index (fun d => { d with arguments := d.arguments ++ a })
            else acc
        | none => acc
      (acc, ctr)

/-- Accumulator of the `async for chunk in response` loop. -/
structure ChunkAcc where
  events : List Event
  full_content : String
  tools : List (Nat × ToolCallData)
  ctr : Nat
  deriving Repr

/-- Lines 238-246 (`if delta.content:`): for truthy text content, append
the fragment to the assistant buffer and emit a TEXT_MESSAGE_CONTENT event
carrying exactly that fragment. -/
def contentStep (msgId : String) (acc : ChunkAcc) (content : Option String) : ChunkAcc :=
  match content with
  | some c =>
      if c ≠ "" then
        { acc with events := acc.events ++ [.textMessageContent msgId c],
                   full_content := acc.full_content ++ c }
      else acc
  | none => acc

/-- Lines 248-263 (`if delta.tool_calls:`): route each fragment by
positional index into the accumulator. -/
def toolStep (fresh : Nat → String) (acc : ChunkAcc)
    (tool_calls : Option (List ToolCallFragment)) : ChunkAcc :=
  match tool_calls with
  | none => acc
  | some tcs =>
      if tcs.isEmpty then acc
      else
        let p := tcs.foldl (procToolFragment fresh) (acc.tools, acc.ctr)
        { acc with tools := p.1, ctr := p.2 }

/-- Processing one streamed chunk (lines 234-263). -/
def procChunk (msgId : String) (fresh : Nat → String) (acc : ChunkAcc) (ch : Chunk) : ChunkAcc :=
  match ch.choices.head? with
  | none => acc
  | some delta => toolStep fresh (contentStep msgId acc delta.content) delta.tool_calls

/-- The error-marker tool result produced on a JSON decode failure. -/
def toolResultErr : JVal := .obj [("error", .str "Invalid JSON in tool arguments")]

/-- Result of the tool-invocation loop: the events it emitted, the agent
state it left, the uuid counter, and the message of the exception it
raised, if any. -/
structure ToolLoopResult where
  events : List Event
  state : RecipeStateB
  ctr : Nat
  raised : Option String
  deriving Repr

/-- The tool-invocation loop (lines 273-312).  For each completed
invocation in accumulation order: emit TOOL_CALL_START with a fresh uuid;
decode the argument buffer - a `json.JSONDecodeError` (modelled by
`jloads _ = none`) yields the error-marker result without touching the
state; on success run the handler (which may raise: that aborts the loop
and propagates, returned as `some errorMessage`) and, for `update_recipe`,
emit a STATE_DELTA with a single root-path replace; then emit
TOOL_CALL_END carrying the result. -/
def procTools (jloads : String → Option JVal) (fresh : Nat → String) :
    RecipeStateB → Nat → List ToolCallData → ToolLoopResult
  | st, ctr, [] => { events := [], state := st, ctr := ctr, raised := none }
  | st, ctr, tc :: rest =>
      let tool_call_id := fresh ctr
      match jloads tc.arguments with
      | none =>
          let r := procTools jloads fresh st (ctr + 1) rest
          { r with events := .toolCallStart tool_call_id tc.name ::
              .toolCallEnd tool_call_id toolResultErr :: r.events }
      | some args =>
          match handleToolCall st tc.name args with
          | .error e =>
              { events := [.toolCallStart tool_call_id tc.name], state := st,
                ctr := ctr + 1, raised := some e }
          | .ok (st', result) =>
              let deltaEvs : List Event :=
                if tc.name == "update_recipe" then
                  [.stateDelta [⟨"replace", "/recipe", recipeToDict st'.recipe⟩]]
                else []
              let r := procTools jloads fresh st' (ctr + 1) rest
              { r with events := .toolCallStart tool_call_id tc.name ::
                  (deltaEvs ++ [.toolCallEnd tool_call_id result]) ++ r.events }

/-- The state as it stands right after `RUN_STARTED`: generation flagged,
user message appended (lines 195-199). -/
def afterUserMsg (st0 : RecipeStateB) (user_message : JVal) : RecipeStateB :=
  { st0 with is_generating := true,
             messages := st0.messages ++ [MessageB.mk "user" user_message] }

/-- The initial accumulator of the chunk loop: TEXT_MESSAGE_START already
emitted, empty assistant buffer, no tool calls. -/
def chunkAccInit (msgId : String) : ChunkAcc :=
  { events := [.textMessageStart msgId "assistant"], full_content := "",
    tools := [], ctr := 0 }

/-- The `try:` block of `RecipeAgent.run` (lines 214-319): everything
between the initial snapshot and the `except`/`finally` clauses, returning
the events it yields and the state it leaves.  An exception - from the
`create` call, from the chunk iteration, or propagated out of the tool
loop - is converted into a trailing RUN_ERROR event (the `except` clause),
never propagated further. -/
def runAgentTry (st1 : RecipeStateB) (model : ModelResult)
    (jloads : String → Option JVal) (msgId : String) (fresh : Nat → String) :
    List Event × RecipeStateB :=
  match model with
  | .createError e => ([Event.runError e], st1)
  | .stream chunks errOpt =>
      let acc := chunks.foldl (procChunk msgId fresh) (chunkAccInit msgId)
      match errOpt with
      | some e => (acc.events ++ [Event.runError e], st1)
      | none =>
          let r := procTools jloads fresh st1 acc.ctr (acc.tools.map Prod.snd)
          let evs := acc.events ++ [Event.textMessageEnd msgId] ++ r.events
          match r.raised with
          | some e => (evs ++ [Event.runError e], r.state)
          | none =>
              let st'' :=
                if acc.full_content ≠ "" then
                  { r.state with messages :=
                      r.state.messages ++ [MessageB.mk "assistant" (.str acc.full_content)] }
                else r.state
              (evs, st'')

/-- `RecipeAgent.run` as a whole, modelled as the full event list a
consumer that drains the generator observes, together with the final
agent state.  The uuid supply is explicit: `runId` and `msgId` stand for
the two uuids drawn up front, `fresh` supplies the uuids drawn while
processing tool calls (both the `tc.id or uuid4()` fallback during
accumulation and the per-invocation `tool_call_id`), threaded through a
counter in drawing order. -/
def runAgent (st0 : RecipeStateB) (user_message : JVal) (model : ModelResult)
    (jloads : String → Option JVal) (runId msgId : String) (fresh : Nat → String) :
    List Event × RecipeStateB :=
  let st1 := afterUserMsg st0 user_message
  let t := runAgentTry st1 model jloads msgId fresh
  let stF := { t.2 with is_generating := false }
  ([.runStarted runId, .stateSnapshot (stateToDict st1)] ++ t.1 ++
     [.stateSnapshot (stateToDict stF), .runFinished runId], stF)

/-! ## The `/shared_state` endpoint (`backend/main.py`, `run_shared_state`) -/

/-- The `RunRequest` pydantic model: `messages` is a list of dicts,
`state` an optional dict. -/
structure RunRequest where
  thread_id : String
  run_id : String
  messages : List (List (String × JVal))
  state : Option JVal
  deriving Repr

/-- What the endpoint hands back: either the plain JSON error object
(returned before any event is produced) or the SSE stream of the agent
run together with the agent state left behind. -/
inductive EndpointResponse where
  | errorJson (error : String)
  | sse (events : List Event) (finalState : RecipeStateB)
  deriving Repr

/-- `m.get("role") == "user"` on one request message. -/
def isUserMessage (m : List (String × JVal)) : Bool :=
  match jget m "role" with
  | some (.str s) => s == "user"
  | _ => false

/-- `run_shared_state`.  The client-supplied `request.state` is ignored by
the source (`if request.state:` has a bare `pass` body - "The agent
maintains its own state"), so it does not appear on the right-hand side at
all.  With no user-role message the endpoint returns
`{"error": "No user message provided"}` and never reaches the stream;
otherwise it streams `agent.run(last_message)` where `last_message` is the
content (default `""`) of the last user-role message. -/
def runSharedState (agentState : RecipeStateB) (req : RunRequest)
    (model : ModelResult) (jloads : String → Option JVal)
    (runId msgId : String) (fresh : Nat → String) : EndpointResponse :=
  let user_messages := req.messages.filter isUserMessage
  match user_messages.getLast? with
  | none => .errorJson "No user message provided"
  | some last =>
      let last_message := jgetD last "content" (.str "")
      let (evs, stF) := runAgent agentState last_message model jloads runId msgId fresh
      .sse evs stF

/-! ## Client event model (`frontend/recipe_app/ag_ui_client.py`) -/

/-- `AGUIEventType` enum. -/
inductive AGUIEventType where
  | RUN_STARTED | RUN_FINISHED | RUN_ERROR
  | TEXT_MESSAGE_START | TEXT_MESSAGE_CONTENT | TEXT_MESSAGE_END
  | TOOL_CALL_START | TOOL_CALL_ARGS | TOOL_CALL_END
  | STATE_SNAPSHOT | STATE_DELTA | MESSAGES_SNAPSHOT
  | RAW | CUSTOM
  deriving Repr, DecidableEq

/-- `AGUIEventType(event_type_str)` with the `ValueError → CUSTOM`
fallback of `AGUIEvent.from_dict`. -/
def eventTypeOfString (s : String) : AGUIEventType :=
  if s == "RUN_STARTED" then .RUN_STARTED
  else if s == "RUN_FINISHED" then .RUN_FINISHED
  else if s == "RUN_ERROR" then .RUN_ERROR
  else if s == "TEXT_MESSAGE_START" then .TEXT_MESSAGE_START
  else if s == "TEXT_MESSAGE_CONTENT" then .TEXT_MESSAGE_CONTENT
  else if s == "TEXT_MESSAGE_END" then .TEXT_MESSAGE_END
  else if s == "TOOL_CALL_START" then .TOOL_CALL_START
  else if s == "TOOL_CALL_ARGS" then .TOOL_CALL_ARGS
  else if s == "TOOL_CALL_END" then .TOOL_CALL_END
  else if s == "STATE_SNAPSHOT" then .STATE_SNAPSHOT
  else if s == "STATE_DELTA" then .STATE_DELTA
  else if s == "MESSAGES_SNAPSHOT" then .MESSAGES_SNAPSHOT
  else if s == "RAW" then .RAW
  else .CUSTOM

/-- `AGUIEvent` dataclass: the decoded tag plus the whole payload dict. -/
structure AGUIEvent where
  type : AGUIEventType
  data : List (String × JVal)
  timestamp : JVal
  deriving Repr

/-- The tag resolution of `AGUIEvent.from_dict`:
`AGUIEventType(data.get("type", "CUSTOM"))` with the `ValueError → CUSTOM`
fallback (a non-string type value also raises ValueError, hence CUSTOM). -/
def frameType (fs : List (String × JVal)) : AGUIEventType :=
  match jgetD fs "type" (.str "CUSTOM") with
  | .str s => eventTypeOfString s
  | _ => .CUSTOM

/-- `AGUIEvent.from_dict`.  `data.get("type", "CUSTOM")` requires the
decoded JSON value to be a dict (otherwise `.get` raises AttributeError,
which `AGUIClient.run` does not catch). -/
def aguiEventFromDict (d : JVal) : Except String AGUIEvent :=
  match d with
  | .obj fs =>
      .ok { type := frameType fs, data := fs, timestamp := jgetD fs "timestamp" (.str "") }
  | _ => .error "AttributeError: data.get on non-dict"

/-! ## Client SSE stream parsing (`AGUIClient.run`, lines 147-166)

The byte stream is observed through `response.aiter_lines()` as a list of
lines.  Lines without the `data: ` marker are skipped; a payload that
fails `json.loads` is skipped (`except json.JSONDecodeError: continue`);
the per-client message tracking (`_current_message_id` /
`_current_message_content`) is updated before each event is yielded, and
its `+=` raises TypeError on a non-string content value (uncaught). -/

/-- The mutable bits of `AGUIClient` touched by the loop plus the events
yielded so far. -/
structure ClientAcc where
  events : List AGUIEvent
  current_message_id : JVal
  current_message_content : String
  deriving Repr

def clientAccInit : ClientAcc := { events := [], current_message_id := .str "", current_message_content := "" }

/-- Processing of one line of the SSE response body.
`line.startswith("data: ")` and `line[6:]` are expressed on the character
sequence of the line (Python slices strings by characters). -/
def stepLine (jloads : String → Option JVal) (acc : ClientAcc) (line : String) :
    Except String ClientAcc :=
  if line.data.take 6 = "data: ".data then
    let data_str : String := ⟨line.data.drop 6⟩
    match jloads data_str with
    | none => .ok acc
    | some d =>
        match aguiEventFromDict d with
        | .error e => .error e
        | .ok ev =>
            let acc' : Except String ClientAcc :=
              if ev.type == .TEXT_MESSAGE_START then
                .ok { acc with current_message_id := jgetD ev.data "messageId" (.str ""),
                               current_message_content := "" }
              else if ev.type == .TEXT_MESSAGE_CONTENT then
                match jgetD ev.data "content" (.str "") with
                | .str c => .ok { acc with current_message_content := acc.current_message_content ++ c }
                | _ => .error "TypeError: cannot concatenate str and non-str"
              else .ok acc
            match acc' with
            | .error e => .error e
            | .ok acc'' => .ok { acc'' with events := acc''.events ++ [ev] }
  else .ok acc

/-- The whole `async for line in response.aiter_lines()` loop. -/
def processLines (jloads : String → Option JVal) (acc : ClientAcc) :
    List String → Except String ClientAcc
  | [] => .ok acc
  | line :: rest =>
      match stepLine jloads acc line with
      | .error e => .error e
      | .ok acc' => processLines jloads acc' rest

/-- The event sequence the consumer of `AGUIClient.run` sees for a given
list of response lines. -/
def parseSSE (jloads : String → Option JVal) (lines : List String) :
    Except String (List AGUIEvent) :=
  match processLines jloads clientAccInit lines with
  | .error e => .error e
  | .ok acc => .ok acc.events

/-! ## Frontend data model (`frontend/recipe_app/state.py`)

The frontend `Recipe` / `Ingredient` are pydantic models with typed string
fields; feeding them a non-string value is modelled as a raise at the
validation boundary. -/

structure FIngredient where
  icon : String
  name : String
  amount : String
  deriving Repr, DecidableEq

structure FRecipe where
  title : String
  skill_level : String
  special_preferences : List String
  cooking_time : String
  ingredients : List FIngredient
  instructions : List String
  deriving Repr, DecidableEq

/-- `Recipe()` defaults of the frontend model. -/
def fRecipeDefault : FRecipe :=
  { title := "", skill_level := "Intermedio", special_preferences := [],
    cooking_time := "30 min", ingredients := [], instructions := [] }

structure ChatMessage where
  role : String
  content : String
  deriving Repr, DecidableEq

/-- `_map_skill_level`: a falsy skill value short-circuits to
"Intermedio"; a truthy one must be a string (`.lower()` raises
otherwise) and is looked up case-insensitively with default
"Intermedio". -/
def skillMapping : List (String × String) :=
  [("beginner", "Principiante"), ("intermediate", "Intermedio"),
   ("advanced", "Avanzado"), ("principiante", "Principiante"),
   ("intermedio", "Intermedio"), ("avanzado", "Avanzado")]

/-- `str.lower()` (ASCII, which covers every key of the mapping). -/
def strLower (s : String) : String := ⟨s.data.map Char.toLower⟩

def mapSkillLevel (skill : JVal) : Except String String :=
  if jTruthy skill then
    match skill with
    | .str s =>
        .ok (((skillMapping.find? (fun p => p.1 == strLower s)).map (fun p => p.2)).getD "Intermedio")
    | _ => .error "AttributeError: lower on non-str"
  else .ok "Intermedio"

/-- pydantic validation of a `str` field. -/
def asString (j : JVal) : Except String String :=
  match j with
  | .str s => .ok s
  | _ => .error "ValidationError: str field"

/-- pydantic validation of a `list[str]` field. -/
def asStringList (j : JVal) : Except String (List String) :=
  match j with
  | .arr xs => xs.mapM asString
  | _ => .error "ValidationError: list of str field"

/-- `Ingredient(icon=ing.get("icon", "🍽️"), name=ing.get("name", ""),
amount=ing.get("amount", ""))` for one element of the ingredients list. -/
def parseFIngredient (j : JVal) : Except String FIngredient :=
  match j with
  | .obj fs => do
      let icon ← asString (jgetD fs "icon" (.str "🍽️"))
      let name ← asString (jgetD fs "name" (.str ""))
      let amount ← asString (jgetD fs "amount" (.str ""))
      .ok { icon := icon, name := name, amount := amount }
  | _ => .error "AttributeError: ing.get on non-dict"

/-- Building the frontend `Recipe` from a decoded `recipe_data` dict.
This is the `Recipe(...)` constructor call shared verbatim by the
STATE_SNAPSHOT branch (lines 434-448 of `state.py`) and the STATE_DELTA
branch (lines 475-489): every field is taken from `recipe_data` with the
source defaults - nothing is read from the prior document. -/
def recipeFromData (rfs : List (String × JVal)) : Except String FRecipe := do
  let title ← asString (jgetD rfs "title" (.str ""))
  let skill ← mapSkillLevel (jgetD rfs "skill_level" (.str "Intermediate"))
  let prefs ← asStringList (jgetD rfs "special_preferences" (.arr []))
  let ctime ← asString (jgetD rfs "cooking_time" (.str "30 min"))
  let ings ← (match jgetD rfs "ingredients" (.arr []) with
    | .arr xs => xs.mapM parseFIngredient
    | _ => .error "TypeError: ingredients not iterable of dicts")
  let instrs ← asStringList (jgetD rfs "instructions" (.arr []))
  .ok { title := title, skill_level := skill, special_preferences := prefs,
        cooking_time := ctime, ingredients := ings, instructions := instrs }

/-! ### A canonical JSON serializer standing for `json.dumps(..., sort_keys=True)`

Only used to produce the recipe-change hash, which the source compares
for equality; key sorting is elided (the dicts hashed here come from one
producer with a fixed key order, and no property below depends on the
exact string). -/

def jEscape (s : String) : String :=
  (s.replace "\\" "\\\\").replace "\"" "\\\""

mutual
def jdumps : JVal → String
  | .null => "null"
  | .bool true => "true"
  | .bool false => "false"
  | .num n => toString n
  | .str s => "\"" ++ jEscape s ++ "\""
  | .arr xs => "[" ++ jdumpsList xs ++ "]"
  | .obj fs => "\x7b" ++ jdumpsFields fs ++ "\x7d"
def jdumpsList : List JVal → String
  | [] => ""
  | [x] => jdumps x
  | x :: y :: xs => jdumps x ++ ", " ++ jdumpsList (y :: xs)
def jdumpsFields : List (String × JVal) → String
  | [] => ""
  | [(k, v)] => "\"" ++ jEscape k ++ "\": " ++ jdumps v
  | (k, v) :: f :: fs => "\"" ++ jEscape k ++ "\": " ++ jdumps v ++ ", " ++ jdumpsFields (f :: fs)
end

/-- Python `len(...)` (raises on values without a length). -/
def jLen : JVal → Except String Nat
  | .arr xs => .ok xs.length
  | .str s => .ok s.length
  | .obj fs => .ok fs.length
  | _ => .error "TypeError: object has no len"

/-- Python `str(...)` as used for `{new_title}` in the summary f-strings
(only ever reached with a truthy title). -/
def jFormat : JVal → String
  | .str s => s
  | .bool true => "True"
  | .bool false => "False"
  | .null => "None"
  | .num n => toString n
  | j => jdumps j

/-- `old_title != new_title` comparing the stored string title with the
raw JSON title value. -/
def titleChanged (old_title : String) (new_title : JVal) : Bool :=
  match new_title with
  | .str t => old_title != t
  | _ => true

/-! ## The client state reducer (`RecipeState.send_message`)

The event-processing state of `RecipeState` (the UI-facing fields the
event loop reads or writes; pure page-layout fields such as
`current_input` and `chat_open` take no part in event folding). -/

structure UIState where
  messages : List ChatMessage
  recipe : FRecipe
  last_recipe_hash : String
  is_loading : Bool
  is_streaming : Bool
  current_streaming_content : String
  error_message : JVal
  deriving Repr

/-- The `RecipeState` defaults for those fields. -/
def uiStateInit : UIState :=
  { messages := [], recipe := fRecipeDefault, last_recipe_hash := "",
    is_loading := false, is_streaming := false,
    current_streaming_content := "", error_message := .str "" }

/-- Lines 350-361 of `state.py`: what `send_message` does after reading a
non-blank input, before any event arrives - append the user message,
clear the previous error, raise the loading flag, reset streaming. -/
def beginRun (s : UIState) (user_message : String) : UIState :=
  { s with messages := s.messages ++ [{ role := "user", content := user_message }],
           error_message := .str "",
           is_loading := true,
           is_streaming := false,
           current_streaming_content := "" }

/-- Lines 509-513: the `except Exception` handler around the whole event
loop (unrecoverable local error). -/
def localError (s : UIState) (e : String) : UIState :=
  { s with error_message := .str ("Error connecting to agent: " ++ e),
           is_loading := false,
           is_streaming := false }

/-- The STATE_SNAPSHOT branch (lines 418-466).  `state_data` prefers the
`snapshot` key, falling back to `state` then `{}`; both `state_data` and
its `recipe` entry must be dicts (`.get` raises otherwise).  A falsy
(absent or empty) title leaves the whole state untouched.  Otherwise the
document is rebuilt wholesale from the payload, and - when the serialized
payload differs from the last recorded hash - the hash is updated and a
summary chat message is appended. -/
def reduceSnapshot (s : UIState) (d : List (String × JVal)) : Except String UIState :=
  let state_data :=
    match jget d "snapshot" with
    | some v => v
    | none => jgetD d "state" (.obj [])
  match state_data with
  | .obj sfs =>
      match jgetD sfs "recipe" (.obj []) with
      | .obj rfs =>
          let new_title := jgetD rfs "title" (.str "")
          if jTruthy new_title then do
            let content_hash := jdumps (.obj rfs)
            let is_recipe_changed := content_hash != s.last_recipe_hash
            let old_title := s.recipe.title
            let newRecipe ← recipeFromData rfs
            let s1 := { s with recipe := newRecipe }
            if is_recipe_changed then do
              let numIng ← jLen (jgetD rfs "ingredients" (.arr []))
              let numSteps ← jLen (jgetD rfs "instructions" (.arr []))
              let t := jFormat new_title
              let counts := toString numIng ++ " ingredientes y " ++ toString numSteps ++ " pasos."
              let summary :=
                if old_title ≠ "" && titleChanged old_title new_title then
                  "He actualizado la receta a **" ++ t ++ "** con " ++ counts
                else if old_title ≠ "" then
                  "He modificado **" ++ t ++ "**. Ahora tiene " ++ counts
                else
                  "¡Listo! He creado **" ++ t ++ "** con " ++ counts
              .ok { s1 with last_recipe_hash := content_hash,
                            messages := s1.messages ++ [{ role := "assistant", content := summary }] }
            else .ok s1
          else .ok s
      | _ => .error "AttributeError: recipe_data.get on non-dict"
  | _ => .error "AttributeError: state_data.get on non-dict"

/-- The STATE_DELTA branch (lines 468-490): `for op in delta`, and for an
op whose `path` equals "/recipe" with a truthy `value`, rebuild the
document wholesale from that value (a falsy value is skipped).  The other
event branches never touch the document. -/
def applyDeltaOp (r : FRecipe) (op : JVal) : Except String FRecipe :=
  match op with
  | .obj ofs =>
      let isRecipePath :=
        match jget ofs "path" with
        | some (.str p) => p == "/recipe"
        | _ => false
      if isRecipePath then
        let recipe_data := jgetD ofs "value" (.obj [])
        if jTruthy recipe_data then
          match recipe_data with
          | .obj rfs => recipeFromData rfs
          | _ => .error "AttributeError: recipe_data.get on non-dict"
        else .ok r
      else .ok r
  | _ => .error "AttributeError: op.get on non-dict"

def applyDeltaList (r0 : FRecipe) (delta : JVal) : Except String FRecipe :=
  match delta with
  | .arr ops => ops.foldlM applyDeltaOp r0
  | .str "" => .ok r0
  | .obj [] => .ok r0
  | _ => .error "TypeError: delta not iterable of dicts"

/-- One step of the client state reducer: the event dispatch of
`send_message` (lines 391-507).  TOOL_CALL_START / TOOL_CALL_END and the
event types without a branch leave the state unchanged. -/
def reduceEvent (s : UIState) (ev : AGUIEvent) : Except String UIState :=
  match ev.type with
  | .RUN_STARTED => .ok { s with is_loading := true }
  | .TEXT_MESSAGE_START =>
      .ok { s with is_streaming := true, current_streaming_content := "" }
  | .TEXT_MESSAGE_CONTENT =>
      match jgetD ev.data "content" (.str "") with
      | .str c => .ok { s with current_streaming_content := s.current_streaming_content ++ c }
      | _ => .error "TypeError: cannot concatenate str and non-str"
  | .TEXT_MESSAGE_END =>
      let s1 :=
        if s.current_streaming_content ≠ "" then
          { s with messages := s.messages ++
              [{ role := "assistant", content := s.current_streaming_content }] }
        else s
      .ok { s1 with is_streaming := false, current_streaming_content := "" }
  | .STATE_SNAPSHOT => reduceSnapshot s ev.data
  | .STATE_DELTA => do
      let r ← applyDeltaList s.recipe (jgetD ev.data "delta" (.arr []))
      .ok { s with recipe := r }
  | .RUN_ERROR => .ok { s with error_message := jgetD ev.data "error" (.str "Unknown error") }
  | .RUN_FINISHED => .ok { s with is_loading := false, is_streaming := false }
  | _ => .ok s

/-! # Theorems -/

/-! ## Shared shape lemmas about the run loop -/

/-- The event list of any run, unfolded once: RUN_STARTED, the initial
snapshot, the `try` block events, the final snapshot, RUN_FINISHED. -/
theorem runAgent_events_eq (st0 : RecipeStateB) (um : JVal) (model : ModelResult)
    (jloads : String → Option JVal) (runId msgId : String) (fresh : Nat → String) :
    (runAgent st0 um model jloads runId msgId fresh).1 =
      Event.runStarted runId :: Event.stateSnapshot (stateToDict (afterUserMsg st0 um)) ::
        (runAgentTry (afterUserMsg st0 um) model jloads msgId fresh).1 ++
        [Event.stateSnapshot (stateToDict (runAgent st0 um model jloads runId msgId fresh).2),
         Event.runFinished runId] := rfl

/-- The final agent state of any run is the state the `try`/`except` part
leaves, with the generation flag lowered. -/
theorem runAgent_state_eq (st0 : RecipeStateB) (um : JVal) (model : ModelResult)
    (jloads : String → Option JVal) (runId msgId : String) (fresh : Nat → String) :
    (runAgent st0 um model jloads runId msgId fresh).2 =
      { (runAgentTry (afterUserMsg st0 um) model jloads msgId fresh).2 with
          is_generating := false } := rfl

/-! ## C2 -/

/-- C2: every run of the agent run loop - over every model-stream outcome,
normal completion or an exception anywhere during model streaming or tool
processing - yields an event sequence that begins with RUN_STARTED and
ends with a full STATE_SNAPSHOT immediately followed by RUN_FINISHED
carrying the run identifier; an exception surfaces as a RUN_ERROR event
inside the sequence (the run function is total: nothing propagates out). -/
theorem run_loop_unconditional_finalization
    (st0 : RecipeStateB) (um : JVal) (model : ModelResult)
    (jloads : String → Option JVal) (runId msgId : String) (fresh : Nat → String) :
    (∃ mid snap, (runAgent st0 um model jloads runId msgId fresh).1 =
        Event.runStarted runId :: mid ++
          [Event.stateSnapshot snap, Event.runFinished runId]) ∧
    (∀ e, model = .createError e →
        Event.runError e ∈ (runAgent st0 um model jloads runId msgId fresh).1) ∧
    (∀ chunks e, model = .stream chunks (some e) →
        Event.runError e ∈ (runAgent st0 um model jloads runId msgId fresh).1) := by
  refine ⟨⟨Event.stateSnapshot (stateToDict (afterUserMsg st0 um)) ::
      (runAgentTry (afterUserMsg st0 um) model jloads msgId fresh).1,
      stateToDict (runAgent st0 um model jloads runId msgId fresh).2, by
        rw [runAgent_events_eq]⟩, ?_, ?_⟩
  · rintro e rfl
    rw [runAgent_events_eq]
    simp [runAgentTry]
  · rintro chunks e rfl
    rw [runAgent_events_eq]
    simp [runAgentTry]

/-- Witness for C2 at a concrete failing model call. -/
theorem run_loop_unconditional_finalization_witness :
    Event.runError "boom" ∈
      (runAgent recipeStateBDefault (.str "hola") (.createError "boom")
        (fun _ => none) "r1" "m1" (fun _ => "u")).1 :=
  (run_loop_unconditional_finalization recipeStateBDefault (.str "hola")
    (.createError "boom") (fun _ => none) "r1" "m1" (fun _ => "u")).2.1 "boom" rfl

/-! ## C9 -/

/-- C9: a `/shared_state` request whose messages list has no entry with
role "user" gets the plain JSON object
`{"error": "No user message provided"}` back - the agent run is never
entered, so no protocol event (no RUN_STARTED, no RUN_FINISHED) is
produced for the request. -/
theorem shared_state_no_user_message
    (agentState : RecipeStateB) (req : RunRequest) (model : ModelResult)
    (jloads : String → Option JVal) (runId msgId : String) (fresh : Nat → String)
    (h : ∀ m ∈ req.messages, isUserMessage m = false) :
    runSharedState agentState req model jloads runId msgId fresh =
      .errorJson "No user message provided" := by
  unfold runSharedState
  have hf : req.messages.filter isUserMessage = [] := by
    rw [List.filter_eq_nil_iff]
    intro m hm
    simp [h m hm]
  rw [hf]
  rfl

/-- Witness for C9: a request carrying only an assistant-role message. -/
theorem shared_state_no_user_message_witness :
    runSharedState recipeStateBDefault
      { thread_id := "t1", run_id := "r1",
        messages := [[("role", .str "assistant"), ("content", .str "hola")]],
        state := none }
      (.stream [] none) (fun _ => none) "r1" "m1" (fun _ => "u") =
      .errorJson "No user message provided" :=
  shared_state_no_user_message _ _ _ _ _ _ _ (by
    intro m hm
    simp only [List.mem_singleton] at hm
    subst hm
    rfl)

/-! ## C8 -/

/-- C8: the flag lifecycle of the client state reducer, as one transition
law per step.  A new run sets loading and clears the error and the
buffer; RUN_STARTED sets loading; RUN_FINISHED clears loading and
streaming; an unrecoverable local error clears both flags and records the
error; TEXT_MESSAGE_START raises the streaming flag and clears the
buffer, TEXT_MESSAGE_CONTENT appends exactly the fragment (leaving every
other field alone), TEXT_MESSAGE_END flushes a non-empty buffer into the
transcript and clears buffer and streaming flag; RUN_ERROR records the
carried error message. -/
theorem reducer_flag_lifecycle
    (s : UIState) (d : List (String × JVal)) (ts : JVal) (m e : String) :
    (beginRun s m).is_loading = true ∧
    (beginRun s m).error_message = .str "" ∧
    (beginRun s m).current_streaming_content = "" ∧
    reduceEvent s ⟨.RUN_STARTED, d, ts⟩ = .ok { s with is_loading := true } ∧
    reduceEvent s ⟨.TEXT_MESSAGE_START, d, ts⟩ =
      .ok { s with is_streaming := true, current_streaming_content := "" } ∧
    (∀ c, jgetD d "content" (.str "") = .str c →
      reduceEvent s ⟨.TEXT_MESSAGE_CONTENT, d, ts⟩ =
        .ok { s with current_streaming_content := s.current_streaming_content ++ c }) ∧
    reduceEvent s ⟨.TEXT_MESSAGE_END, d, ts⟩ =
      .ok { s with
          messages := s.messages ++
            (if s.current_streaming_content ≠ "" then
              [{ role := "assistant", content := s.current_streaming_content }]
             else []),
          is_streaming := false,
          current_streaming_content := "" } ∧
    reduceEvent s ⟨.RUN_ERROR, d, ts⟩ =
      .ok { s with error_message := jgetD d "error" (.str "Unknown error") } ∧
    reduceEvent s ⟨.RUN_FINISHED, d, ts⟩ =
      .ok { s with is_loading := false, is_streaming := false } ∧
    (localError s e).is_loading = false ∧
    (localError s e).is_streaming = false ∧
    (localError s e).error_message = .str ("Error connecting to agent: " ++ e) := by
  refine ⟨rfl, rfl, rfl, rfl, rfl, ?_, ?_, rfl, rfl, rfl, rfl, rfl⟩
  · intro c hc
    simp only [reduceEvent, hc]
  · by_cases hb : s.current_streaming_content = "" <;>
      simp [reduceEvent, hb]

/-- Witness for C8 at a concrete state and payload. -/
theorem reducer_flag_lifecycle_witness :
    reduceEvent uiStateInit ⟨.TEXT_MESSAGE_CONTENT, [("content", .str "¡Hola!")], .str ""⟩ =
      .ok { uiStateInit with current_streaming_content := "¡Hola!" } :=
  ((reducer_flag_lifecycle uiStateInit [("content", .str "¡Hola!")] (.str "") "m" "e").2.2.2.2.2.1
    "¡Hola!" rfl).trans (by rfl)

/-! ## C10 -/

/-- C10: a STATE_SNAPSHOT whose document payload has an absent or empty
title is tolerated and ignored: the reducer neither raises nor applies
anything - recipe, transcript, recipe-change hash (indeed the whole
state) are returned unchanged. -/
theorem snapshot_falsy_title_ignored
    (s : UIState) (d : List (String × JVal)) (ts : JVal)
    (sfs rfs : List (String × JVal))
    (hstate : (match jget d "snapshot" with
               | some v => v
               | none => jgetD d "state" (.obj [])) = .obj sfs)
    (hrecipe : jgetD sfs "recipe" (.obj []) = .obj rfs)
    (htitle : jget rfs "title" = none ∨ jget rfs "title" = some (.str "")) :
    reduceEvent s ⟨.STATE_SNAPSHOT, d, ts⟩ = .ok s := by
  have : reduceEvent s ⟨.STATE_SNAPSHOT, d, ts⟩ = reduceSnapshot s d := rfl
  rw [this]
  unfold reduceSnapshot
  rw [hstate]
  simp only [hrecipe]
  rcases htitle with h | h <;> simp [jgetD, h, jTruthy]

/-- Witness for C10: a snapshot event whose recipe payload lacks a
title. -/
theorem snapshot_falsy_title_ignored_witness :
    reduceEvent uiStateInit
      ⟨.STATE_SNAPSHOT,
       [("state", .obj [("recipe", .obj [("ingredients", .arr [])])])], .str ""⟩ =
      .ok uiStateInit :=
  snapshot_falsy_title_ignored uiStateInit _ _ [("recipe", .obj [("ingredients", .arr [])])]
    [("ingredients", .arr [])] rfl rfl (.inl rfl)

/-! ## C6 -/

/-- What one delta op does, as a function of the op alone: `none` when the
op is skipped (wrong path or falsy value - the document is left as it
was), otherwise the outcome, which never reads the prior document. -/
def deltaOpEffect (op : JVal) : Option (Except String FRecipe) :=
  match op with
  | .obj ofs =>
      let isRecipePath :=
        match jget ofs "path" with
        | some (.str p) => p == "/recipe"
        | _ => false
      if isRecipePath then
        let recipe_data := jgetD ofs "value" (.obj [])
        if jTruthy recipe_data then
          match recipe_data with
          | .obj rfs => some (recipeFromData rfs)
          | _ => some (.error "AttributeError: recipe_data.get on non-dict")
        else none
      else none
  | _ => some (.error "AttributeError: op.get on non-dict")

theorem applyDeltaOp_eq (r : FRecipe) (op : JVal) :
    applyDeltaOp r op = (deltaOpEffect op).getD (.ok r) := by
  unfold applyDeltaOp deltaOpEffect
  cases op with
  | obj ofs =>
      simp only []
      split
      · split
        · split <;> rfl
        · rfl
      · rfl
  | null => rfl
  | bool b => rfl
  | num n => rfl
  | str s => rfl
  | arr xs => rfl

/-- `for op in delta` on a one-op delta list. -/
theorem applyDeltaList_single (r : FRecipe) (op : JVal) :
    applyDeltaList r (.arr [op]) = applyDeltaOp r op := by
  cases h : applyDeltaOp r op <;> simp [applyDeltaList, List.foldlM, h]

/-- Counterexample to C6 as stated: a STATE_DELTA whose single operation
is a replace at path "/recipe" carrying the empty object is skipped by
the reducer (`if recipe_data:` is false), so the prior document survives
unchanged instead of becoming the (default-decoded) carried value. -/
theorem root_replace_exact_value_counterexample :
    applyDeltaList { fRecipeDefault with title := "Pasta" }
        (.arr [.obj [("op", .str "replace"), ("path", .str "/recipe"), ("value", .obj [])]]) =
      .ok { fRecipeDefault with title := "Pasta" } ∧
    recipeFromData [] = .ok fRecipeDefault ∧
    ({ fRecipeDefault with title := "Pasta" } : FRecipe) ≠ fRecipeDefault :=
  ⟨rfl, by rfl, by decide⟩

/-- C6 amended: a replace at "/recipe" whose carried value is a truthy
(non-empty) object rebuilds the document entirely from that value - the
result never reads the prior document, so it is a full replacement and
not a merge; a falsy carried value is skipped, leaving the document
unchanged; and in every case applying the same one-op delta twice in
succession yields the same document as applying it once. -/
theorem root_replace_full_replacement_idempotent
    (r r' : FRecipe) (op : JVal) (ofs rfs : List (String × JVal)) :
    (op = .obj ofs → jget ofs "path" = some (.str "/recipe") →
      jgetD ofs "value" (.obj []) = .obj rfs → rfs ≠ [] →
      applyDeltaList r (.arr [op]) = recipeFromData rfs) ∧
    (applyDeltaList r (.arr [op]) = .ok r' →
      applyDeltaList r' (.arr [op]) = .ok r') := by
  constructor
  · rintro rfl hpath hval hne
    rw [applyDeltaList_single, applyDeltaOp_eq]
    have htr : jTruthy (.obj rfs) = true := by
      cases rfs with
      | nil => exact absurd rfl hne
      | cons a l => rfl
    simp only [deltaOpEffect, hpath, hval, htr, beq_self_eq_true, if_true, Option.getD]
  · intro h
    rw [applyDeltaList_single] at h ⊢
    rw [applyDeltaOp_eq] at h ⊢
    cases hef : deltaOpEffect op with
    | none => rfl
    | some out => rw [hef] at h; exact h

/-- Witness for C6 amended: a full replacement applied twice at a
concrete prior document and value. -/
theorem root_replace_full_replacement_idempotent_witness :
    applyDeltaList { fRecipeDefault with title := "Pasta" }
        (.arr [.obj [("path", .str "/recipe"), ("value", .obj [("title", .str "Paella")])]]) =
      recipeFromData [("title", .str "Paella")] ∧
    applyDeltaList { fRecipeDefault with title := "Paella" }
        (.arr [.obj [("path", .str "/recipe"), ("value", .obj [("title", .str "Paella")])]]) =
      .ok { fRecipeDefault with title := "Paella" } := by
  constructor
  · exact (root_replace_full_replacement_idempotent
      { fRecipeDefault with title := "Pasta" } fRecipeDefault
      (.obj [("path", .str "/recipe"), ("value", .obj [("title", .str "Paella")])])
      [("path", .str "/recipe"), ("value", .obj [("title", .str "Paella")])]
      [("title", .str "Paella")]).1 rfl rfl rfl (List.cons_ne_nil _ _)
  · exact (root_replace_full_replacement_idempotent
      { fRecipeDefault with title := "Pasta" }
      { fRecipeDefault with title := "Paella" }
      (.obj [("path", .str "/recipe"), ("value", .obj [("title", .str "Paella")])])
      [] []).2 (by rfl)

/-! ## C5 -/

/-- C5: a completed tool invocation whose accumulated argument buffer is
not valid JSON produces the error-marker tool result, still emits its
TOOL_CALL_END, raises nothing, leaves the document untouched by that
invocation, and hands the unchanged state on to the remaining pending
invocations; and independently of any tool outcome the run still ends
with the final snapshot and RUN_FINISHED. -/
theorem tool_decode_failure_contained
    (jloads : String → Option JVal) (fresh : Nat → String)
    (st : RecipeStateB) (ctr : Nat) (tc : ToolCallData) (rest : List ToolCallData)
    (h : jloads tc.arguments = none) :
    procTools jloads fresh st ctr (tc :: rest) =
      { procTools jloads fresh st (ctr + 1) rest with
          events := .toolCallStart (fresh ctr) tc.name ::
            .toolCallEnd (fresh ctr) toolResultErr ::
            (procTools jloads fresh st (ctr + 1) rest).events } ∧
    (∀ (st0 : RecipeStateB) (um : JVal) (model : ModelResult) (runId msgId : String),
      ∃ mid snap, (runAgent st0 um model jloads runId msgId fresh).1 =
        Event.runStarted runId :: mid ++
          [Event.stateSnapshot snap, Event.runFinished runId]) := by
  constructor
  · simp only [procTools, h]
  · intro st0 um model runId msgId
    exact ⟨Event.stateSnapshot (stateToDict (afterUserMsg st0 um)) ::
      (runAgentTry (afterUserMsg st0 um) model jloads msgId fresh).1,
      stateToDict (runAgent st0 um model jloads runId msgId fresh).2,
      runAgent_events_eq st0 um model jloads runId msgId fresh⟩

/-- Witness for C5: one invalid-JSON invocation followed by a valid
`update_recipe` invocation - the failing one is contained, the following
one still runs and replaces the document. -/
theorem tool_decode_failure_contained_witness :
    procTools (fun s => if s == "good" then some (.obj [("title", .str "Paella")]) else none)
        (fun n => "uuid" ++ toString n) recipeStateBDefault 0
        [⟨"i1", "update_recipe", "broken"⟩, ⟨"i2", "update_recipe", "good"⟩] =
      { events := [.toolCallStart "uuid0" "update_recipe",
                   .toolCallEnd "uuid0" toolResultErr,
                   .toolCallStart "uuid1" "update_recipe",
                   .stateDelta [⟨"replace", "/recipe",
                     recipeToDict { recipeBDefault with title := .str "Paella" }⟩],
                   .toolCallEnd "uuid1"
                     (.obj [("success", .bool true),
                            ("message", .str "Receta actualizada correctamente")])],
        state := { recipeStateBDefault with recipe := { recipeBDefault with title := .str "Paella" } },
        ctr := 2, raised := none } :=
  ((tool_decode_failure_contained
      (fun s => if s == "good" then some (.obj [("title", .str "Paella")]) else none)
      (fun n => "uuid" ++ toString n) recipeStateBDefault 0
      ⟨"i1", "update_recipe", "broken"⟩ [⟨"i2", "update_recipe", "good"⟩] rfl).1).trans (by rfl)

/-! ## C7 -/

/-- One SSE frame line for a payload string. -/
def frameLine (payload : String) : String := "data: " ++ payload

theorem frameLine_take (p : String) : (frameLine p).data.take 6 = "data: ".data := by
  show ("data: " ++ p).data.take 6 = "data: ".data
  rw [String.data_append]
  exact List.take_left' (by rfl)

theorem frameLine_drop (p : String) : (frameLine p).data.drop 6 = p.data := by
  show ("data: " ++ p).data.drop 6 = p.data
  rw [String.data_append]
  exact List.drop_left' (by rfl)

/-- `stepLine` on a well-delimited frame line, reduced to a function of
the payload. -/
theorem stepLine_frame (jloads : String → Option JVal) (acc : ClientAcc) (p : String) :
    stepLine jloads acc (frameLine p) =
      match jloads p with
      | none => .ok acc
      | some d =>
          match aguiEventFromDict d with
          | .error e => .error e
          | .ok ev =>
              match (if ev.type == .TEXT_MESSAGE_START then
                       Except.ok { acc with
                         current_message_id := jgetD ev.data "messageId" (.str ""),
                         current_message_content := "" }
                     else if ev.type == .TEXT_MESSAGE_CONTENT then
                       match jgetD ev.data "content" (.str "") with
                       | .str c => Except.ok { acc with
                           current_message_content := acc.current_message_content ++ c }
                       | _ => Except.error "TypeError: cannot concatenate str and non-str"
                     else Except.ok acc : Except String ClientAcc) with
              | .error e => .error e
              | .ok acc2 => .ok { acc2 with events := acc2.events ++ [ev] } := by
  unfold stepLine
  rw [if_pos (frameLine_take p)]
  rw [show (⟨(frameLine p).data.drop 6⟩ : String) = p from congrArg String.mk (frameLine_drop p)]

/-- A malformed frame (payload failing `json.loads`) is skipped: no event,
no raise, no change to the tracked message state. -/
theorem stepLine_frame_skip (jloads : String → Option JVal) (p : String)
    (h : jloads p = none) (acc : ClientAcc) :
    stepLine jloads acc (frameLine p) = .ok acc := by
  rw [stepLine_frame, h]

/-- Well-formed frame: the payload decodes to a dict, and if it is a
TEXT_MESSAGE_CONTENT frame its content is a string (so the client-side
tracking concatenation cannot raise). -/
def frameOk (jloads : String → Option JVal) (p : String) : Bool :=
  match jloads p with
  | some (.obj fs) =>
      if frameType fs == .TEXT_MESSAGE_CONTENT then
        match jgetD fs "content" (.str "") with
        | .str _ => true
        | _ => false
      else true
  | _ => false

/-- The event a well-formed frame decodes to. -/
def frameEvent (jloads : String → Option JVal) (p : String) : AGUIEvent :=
  match jloads p with
  | some (.obj fs) =>
      { type := frameType fs, data := fs, timestamp := jgetD fs "timestamp" (.str "") }
  | _ => { type := .CUSTOM, data := [], timestamp := .str "" }

/-- A well-formed frame is processed without raising and appends exactly
its decoded event to the yielded sequence. -/
theorem stepLine_frame_ok (jloads : String → Option JVal) (p : String)
    (h : frameOk jloads p = true) (acc : ClientAcc) :
    ∃ mid cont, stepLine jloads acc (frameLine p) =
      .ok { events := acc.events ++ [frameEvent jloads p],
            current_message_id := mid, current_message_content := cont } := by
  cases hj : jloads p with
  | none => simp [frameOk, hj] at h
  | some d =>
      cases d with
      | obj fs =>
          rw [stepLine_frame, hj]
          by_cases h1 : frameType fs = .TEXT_MESSAGE_START
          · exact ⟨jgetD fs "messageId" (.str ""), "", by
              simp [aguiEventFromDict, frameEvent, hj, h1]⟩
          · by_cases h2 : frameType fs = .TEXT_MESSAGE_CONTENT
            · have h' : (match jgetD fs "content" (JVal.str "") with
                         | JVal.str _ => true
                         | _ => false) = true := by
                simpa [frameOk, hj, h2] using h
              cases hc : jgetD fs "content" (.str "") with
              | str c =>
                  exact ⟨acc.current_message_id, acc.current_message_content ++ c, by
                    simp [aguiEventFromDict, frameEvent, hj, h1, h2, hc]⟩
              | null => rw [hc] at h'; cases h'
              | bool b => rw [hc] at h'; cases h'
              | num n => rw [hc] at h'; cases h'
              | arr xs => rw [hc] at h'; cases h'
              | obj o => rw [hc] at h'; cases h'
            · exact ⟨acc.current_message_id, acc.current_message_content, by
                simp [aguiEventFromDict, frameEvent, hj, h1, h2]⟩
      | null => simp [frameOk, hj] at h
      | bool b => simp [frameOk, hj] at h
      | num n => simp [frameOk, hj] at h
      | str s => simp [frameOk, hj] at h
      | arr xs => simp [frameOk, hj] at h

/-- C7: a frame whose payload is not valid JSON is skipped without
raising: dropping it from any byte stream leaves the consumer result
unchanged (first conjunct, for an arbitrary surrounding stream and
parser state), and in particular for a malformed frame interleaved
between two well-formed frames both neighbours are decoded and yielded In
their original order (second conjunct). -/
theorem malformed_frame_isolation
    (jloads : String → Option JVal) (a b c : String) (A B : List String) (acc : ClientAcc)
    (hb : jloads b = none) (ha : frameOk jloads a = true) (hc : frameOk jloads c = true) :
    processLines jloads acc (A ++ frameLine b :: B) = processLines jloads acc (A ++ B) ∧
    parseSSE jloads [frameLine a, frameLine b, frameLine c] =
      .ok [frameEvent jloads a, frameEvent jloads c] := by
  constructor
  · induction A generalizing acc with
    | nil =>
        simp only [List.nil_append, processLines, stepLine_frame_skip jloads b hb acc]
    | cons l A ih =>
        simp only [List.cons_append, processLines]
        cases hs : stepLine jloads acc l with
        | error e => rfl
        | ok acc' => exact ih acc'
  · unfold parseSSE
    obtain ⟨m1, c1, h1⟩ := stepLine_frame_ok jloads a ha clientAccInit
    simp only [processLines, h1]
    rw [stepLine_frame_skip jloads b hb]
    obtain ⟨m2, c2, h2⟩ := stepLine_frame_ok jloads c hc
      { events := clientAccInit.events ++ [frameEvent jloads a],
        current_message_id := m1, current_message_content := c1 }
    simp only [h2, processLines]
    simp [clientAccInit]

/-- Witness for C7: a broken frame between a RUN_STARTED and a
RUN_FINISHED frame. -/
theorem malformed_frame_isolation_witness :
    parseSSE
      (fun s =>
        if s == "g1" then some (.obj [("type", .str "RUN_STARTED")])
        else if s == "g2" then some (.obj [("type", .str "RUN_FINISHED")])
        else none)
      [frameLine "g1", frameLine "broken", frameLine "g2"] =
      .ok [{ type := .RUN_STARTED, data := [("type", .str "RUN_STARTED")], timestamp := .str "" },
           { type := .RUN_FINISHED, data := [("type", .str "RUN_FINISHED")], timestamp := .str "" }] :=
  ((malformed_frame_isolation
      (fun s =>
        if s == "g1" then some (.obj [("type", .str "RUN_STARTED")])
        else if s == "g2" then some (.obj [("type", .str "RUN_FINISHED")])
        else none)
      "g1" "broken" "g2" [] [] clientAccInit rfl rfl rfl).2).trans (by rfl)

/-! ## Infrastructure for C3 and C4: the chunk fold and the event stream -/

/-- Concatenation of a list of strings (in order). -/
def concatStrs : List String → String
  | [] => ""
  | s :: rest => s ++ concatStrs rest

theorem append_ne_empty_left (f r : String) (hf : f ≠ "") : f ++ r ≠ "" := by
  intro h
  apply hf
  have hd : (f ++ r).data = ("" : String).data := by rw [h]
  rw [String.data_append] at hd
  exact String.ext (List.append_eq_nil.mp hd).1

theorem concatStrs_append (a b : List String) :
    concatStrs (a ++ b) = concatStrs a ++ concatStrs b := by
  induction a with
  | nil => simp [concatStrs]
  | cons f fs ih => simp [concatStrs, ih, String.append_assoc]

/-- A model chunk carrying one text fragment and nothing else. -/
def textChunk (s : String) : Chunk := ⟨[⟨some s, none⟩]⟩

/-- Folding a run of pure text chunks: one TEXT_MESSAGE_CONTENT event per
fragment, in order, each carrying exactly its fragment; the assistant
buffer accumulates their concatenation; tool accumulation is untouched. -/
theorem procChunk_text_fold (msgId : String) (fresh : Nat → String) (frags : List String)
    (h : ∀ s ∈ frags, s ≠ "") (acc : ChunkAcc) :
    (frags.map textChunk).foldl (procChunk msgId fresh) acc =
      { acc with events := acc.events ++ frags.map (Event.textMessageContent msgId),
                 full_content := acc.full_content ++ concatStrs frags } := by
  induction frags generalizing acc with
  | nil => simp [concatStrs]
  | cons f fs ih =>
      have hf : f ≠ "" := h f (List.mem_cons_self _ _)
      have hstep : procChunk msgId fresh acc (textChunk f) =
          { acc with events := acc.events ++ [.textMessageContent msgId f],
                     full_content := acc.full_content ++ f } := by
        simp [procChunk, textChunk, contentStep, toolStep, hf]
      simp only [List.map_cons, List.foldl_cons, hstep,
        ih (fun s hs => h s (List.mem_cons_of_mem _ hs))]
      simp [concatStrs, String.append_assoc]

/-- The fragments of the TEXT_MESSAGE_CONTENT events of a list. -/
def tmcContents (evs : List Event) : List String :=
  evs.filterMap (fun e => match e with
    | .textMessageContent _ c => some c
    | _ => none)

theorem toolStep_events (fresh : Nat → String) (acc : ChunkAcc)
    (tool_calls : Option (List ToolCallFragment)) :
    (toolStep fresh acc tool_calls).events = acc.events ∧
    (toolStep fresh acc tool_calls).full_content = acc.full_content := by
  cases tool_calls with
  | none => exact ⟨rfl, rfl⟩
  | some tcs =>
      by_cases h : tcs.isEmpty = true <;> simp [toolStep, h]

theorem contentStep_events (msgId : String) (acc : ChunkAcc) (content : Option String) :
    ∃ l : List String, (∀ c ∈ l, c ≠ "") ∧
      (contentStep msgId acc content).events =
        acc.events ++ l.map (Event.textMessageContent msgId) ∧
      (contentStep msgId acc content).full_content = acc.full_content ++ concatStrs l := by
  cases content with
  | none => exact ⟨[], by simp, by simp [contentStep], by simp [contentStep, concatStrs]⟩
  | some c =>
      by_cases hce : c = ""
      · subst hce
        exact ⟨[], by simp, by simp [contentStep], by simp [contentStep, concatStrs]⟩
      · refine ⟨[c], by simpa using hce, ?_, ?_⟩
        · simp [contentStep, hce]
        · simp [contentStep, hce, concatStrs]

/-- One chunk-fold step adds only TEXT_MESSAGE_CONTENT events (zero or
one), each carrying a non-empty fragment, and extends the assistant
buffer by exactly their concatenation. -/
theorem procChunk_events (msgId : String) (fresh : Nat → String) (acc : ChunkAcc) (ch : Chunk) :
    ∃ l : List String, (∀ c ∈ l, c ≠ "") ∧
      (procChunk msgId fresh acc ch).events =
        acc.events ++ l.map (Event.textMessageContent msgId) ∧
      (procChunk msgId fresh acc ch).full_content = acc.full_content ++ concatStrs l := by
  unfold procChunk
  cases hh : ch.choices.head? with
  | none => exact ⟨[], by simp, by simp, by simp [concatStrs]⟩
  | some delta =>
      obtain ⟨l, hl, he, hf⟩ := contentStep_events msgId acc delta.content
      obtain ⟨ht1, ht2⟩ := toolStep_events fresh (contentStep msgId acc delta.content) delta.tool_calls
      exact ⟨l, hl, by rw [ht1, he], by rw [ht2, hf]⟩

/-- Folding any chunk list: the added events are exactly TEXT_MESSAGE_CONTENT
events with non-empty fragments whose concatenation, in order, is what was
added to the assistant buffer. -/
theorem chunkFold_events (msgId : String) (fresh : Nat → String) (chunks : List Chunk) :
    ∀ acc : ChunkAcc, ∃ l : List String, (∀ c ∈ l, c ≠ "") ∧
      (chunks.foldl (procChunk msgId fresh) acc).events =
        acc.events ++ l.map (Event.textMessageContent msgId) ∧
      (chunks.foldl (procChunk msgId fresh) acc).full_content =
        acc.full_content ++ concatStrs l := by
  induction chunks with
  | nil => intro acc; exact ⟨[], by simp, by simp, by simp [concatStrs]⟩
  | cons ch chunks ih =>
      intro acc
      obtain ⟨l1, hl1, he1, hf1⟩ := procChunk_events msgId fresh acc ch
      obtain ⟨l2, hl2, he2, hf2⟩ := ih (procChunk msgId fresh acc ch)
      refine ⟨l1 ++ l2, ?_, ?_, ?_⟩
      · intro c hcm
        rcases List.mem_append.mp hcm with hm | hm
        · exact hl1 c hm
        · exact hl2 c hm
      · simp [List.foldl_cons, he2, he1, List.append_assoc]
      · simp [List.foldl_cons, hf2, hf1, concatStrs_append, String.append_assoc]

/-! ## C1 -/

/-- The final backend document a `/shared_state` response leaves behind
(none when the endpoint answered with the plain error object). -/
def responseFinalRecipe (r : EndpointResponse) : Option RecipeB :=
  match r with
  | .sse _ st => some st.recipe
  | .errorJson _ => none

/-- The names of that document's ingredients. -/
def responseIngredientNames (r : EndpointResponse) : List JVal :=
  match r with
  | .sse _ st => st.recipe.ingredients.map (fun i => i.name)
  | .errorJson _ => []

/-- Server document before the follow-up run: ingredients
Tomato, Beef, Carrot. -/
def c1AgentState : RecipeStateB :=
  { recipeStateBDefault with
      recipe := { recipeBDefault with
        title := .str "Guiso",
        ingredients := [⟨.str "Tomato", .str "2", .str "pcs"⟩,
                        ⟨.str "Beef", .str "500", .str "g"⟩,
                        ⟨.str "Carrot", .str "1", .str "pcs"⟩] } }

/-- The client resends the snapshot with Beef removed. -/
def c1ClientSnapshot : JVal :=
  .obj [("recipe", .obj
    [("title", .str "Guiso"),
     ("ingredients", .arr
       [.obj [("name", .str "Tomato"), ("quantity", .str "2"), ("unit", .str "pcs")],
        .obj [("name", .str "Carrot"), ("quantity", .str "1"), ("unit", .str "pcs")]])])]

def c1Request : RunRequest :=
  { thread_id := "t1", run_id := "r1",
    messages := [[("role", .str "user"), ("content", .str "add garlic")]],
    state := some c1ClientSnapshot }

/-- The follow-up run against a model stream that emits nothing. -/
def c1Response : EndpointResponse :=
  runSharedState c1AgentState c1Request (.stream [] none) (fun _ => none)
    "r2" "m2" (fun n => toString n)

/-- Counterexample to C1 as stated: the run request carries a snapshot
omitting Beef, yet after the follow-up run the server's resulting
document still lists Beef - the endpoint never adopts the client
snapshot (`if request.state:` has a bare `pass` body). -/
theorem client_snapshot_baseline_counterexample :
    responseIngredientNames c1Response =
      [.str "Tomato", .str "Beef", .str "Carrot"] ∧
    JVal.str "Beef" ∈ responseIngredientNames c1Response :=
  ⟨rfl, List.Mem.tail _ (List.Mem.head _)⟩

/-- C1 amended: the server ignores the client-supplied snapshot entirely -
the response is identical with and without one - and keeps its own
in-memory document as the baseline for the turn, so after a follow-up run
whose model stream makes no `update_recipe` replacement the resulting
document is exactly the server's prior document, previously generated
ingredients included, whatever the resent snapshot omitted. -/
theorem client_snapshot_ignored
    (agentState : RecipeStateB) (req : RunRequest) (model : ModelResult)
    (jloads : String → Option JVal) (runId msgId : String) (fresh : Nat → String)
    (s : Option JVal) (lastm : List (String × JVal)) :
    runSharedState agentState { req with state := s } model jloads runId msgId fresh =
      runSharedState agentState { req with state := none } model jloads runId msgId fresh ∧
    ((req.messages.filter isUserMessage).getLast? = some lastm →
      responseFinalRecipe
          (runSharedState agentState req (.stream [] none) jloads runId msgId fresh) =
        some agentState.recipe) := by
  constructor
  · rfl
  · intro hm
    simp only [runSharedState, hm]
    rfl

/-- Witness for C1 amended at the concrete scenario of the
counterexample. -/
theorem client_snapshot_ignored_witness :
    responseFinalRecipe c1Response = some c1AgentState.recipe :=
  (client_snapshot_ignored c1AgentState c1Request (.stream [] none) (fun _ => none)
      "r2" "m2" (fun n => toString n) none
      [("role", .str "user"), ("content", .str "add garlic")]).2 rfl

/-! ## C3 -/

/-- A model chunk carrying exactly one `update_recipe` tool-call fragment
(with a provider-assigned id and the whole argument string). -/
def updateToolChunk (argStr : String) : Chunk :=
  ⟨[⟨none, some [⟨0, some "call1", some ⟨some "update_recipe", some argStr⟩⟩]⟩]⟩

/-- The success payload `_handle_tool_call` returns for `update_recipe`. -/
def updateSuccessResult : JVal :=
  .obj [("success", .bool true), ("message", .str "Receta actualizada correctamente")]

/-- The recipe `_handle_tool_call` builds from parsed `update_recipe`
arguments. -/
def builtRecipe (afs : List (String × JVal)) (ings : List IngredientB) : RecipeB :=
  { title := jgetD afs "title" (.str ""),
    description := jgetD afs "description" (.str ""),
    ingredients := ings,
    instructions := jgetD afs "instructions" (.arr []),
    prep_time := jgetD afs "prep_time" (.str ""),
    cook_time := jgetD afs "cook_time" (.str ""),
    servings := jgetD afs "servings" (.num 4) }

theorem handleToolCall_update (st : RecipeStateB) (afs : List (String × JVal))
    (ings : List IngredientB)
    (hings : parseIngredientsB (jgetD afs "ingredients" (.arr [])) = .ok ings) :
    handleToolCall st "update_recipe" (.obj afs) =
      .ok ({ st with recipe := builtRecipe afs ings }, updateSuccessResult) := by
  simp only [handleToolCall, hings, builtRecipe, updateSuccessResult]
  rfl

/-- Accumulating the single `update_recipe` tool-call chunk: one new
accumulator entry at index 0 with the provider id, the full name and the
whole argument buffer. -/
theorem updateToolChunk_step (msgId : String) (fresh : Nat → String) (acc : ChunkAcc)
    (argStr : String) (hacc : acc.tools = []) (ha : argStr ≠ "") :
    procChunk msgId fresh acc (updateToolChunk argStr) =
      { acc with tools := [(0, ⟨"call1", "update_recipe", argStr⟩)] } := by
  simp [procChunk, updateToolChunk, contentStep, toolStep, procToolFragment, updateEntry,
    hacc, ha]

/-- C3: against a model stream of non-empty text fragments followed by
exactly one `update_recipe` tool call with decodable arguments, the run
loop emits exactly RUN_STARTED, STATE_SNAPSHOT, TEXT_MESSAGE_START, one
TEXT_MESSAGE_CONTENT per fragment (in order), TEXT_MESSAGE_END,
TOOL_CALL_START, STATE_DELTA (a single replace at "/recipe"),
TOOL_CALL_END, STATE_SNAPSHOT, RUN_FINISHED - and the final snapshot
document's title is exactly the title supplied in the tool-call
arguments. -/
theorem end_to_end_event_order
    (st0 : RecipeStateB) (um : JVal) (frags : List String) (argStr : String)
    (jloads : String → Option JVal) (runId msgId : String) (fresh : Nat → String)
    (afs : List (String × JVal)) (ings : List IngredientB)
    (hfrne : ∀ s ∈ frags, s ≠ "") (hfr : frags ≠ [])
    (hargne : argStr ≠ "")
    (hj : jloads argStr = some (.obj afs))
    (hings : parseIngredientsB (jgetD afs "ingredients" (.arr [])) = .ok ings) :
    (runAgent st0 um (.stream (frags.map textChunk ++ [updateToolChunk argStr]) none)
        jloads runId msgId fresh).1 =
      [Event.runStarted runId,
       Event.stateSnapshot (stateToDict (afterUserMsg st0 um)),
       Event.textMessageStart msgId "assistant"] ++
      frags.map (Event.textMessageContent msgId) ++
      [Event.textMessageEnd msgId,
       Event.toolCallStart (fresh 0) "update_recipe",
       Event.stateDelta [⟨"replace", "/recipe", recipeToDict (builtRecipe afs ings)⟩],
       Event.toolCallEnd (fresh 0) updateSuccessResult,
       Event.stateSnapshot (stateToDict
         (runAgent st0 um (.stream (frags.map textChunk ++ [updateToolChunk argStr]) none)
           jloads runId msgId fresh).2),
       Event.runFinished runId] ∧
    (runAgent st0 um (.stream (frags.map textChunk ++ [updateToolChunk argStr]) none)
        jloads runId msgId fresh).2.recipe.title = jgetD afs "title" (.str "") := by
  have hfold := procChunk_text_fold msgId fresh frags hfrne (chunkAccInit msgId)
  have hstep := updateToolChunk_step msgId fresh
    { chunkAccInit msgId with
        events := (chunkAccInit msgId).events ++ frags.map (Event.textMessageContent msgId),
        full_content := (chunkAccInit msgId).full_content ++ concatStrs frags }
    argStr rfl hargne
  have hpt : procTools jloads fresh (afterUserMsg st0 um) 0
      [⟨"call1", "update_recipe", argStr⟩] =
      { events := [Event.toolCallStart (fresh 0) "update_recipe",
                   Event.stateDelta [⟨"replace", "/recipe", recipeToDict (builtRecipe afs ings)⟩],
                   Event.toolCallEnd (fresh 0) updateSuccessResult],
        state := { afterUserMsg st0 um with recipe := builtRecipe afs ings },
        ctr := 1, raised := none } := by
    simp [procTools, hj, handleToolCall_update (afterUserMsg st0 um) afs ings hings]
  have hne : ("" : String) ++ concatStrs frags ≠ "" := by
    cases frags with
    | nil => exact absurd rfl hfr
    | cons f fs =>
        exact append_ne_empty_left f (concatStrs fs) (hfrne f (List.mem_cons_self _ _))
  have htry : runAgentTry (afterUserMsg st0 um)
      (.stream (frags.map textChunk ++ [updateToolChunk argStr]) none) jloads msgId fresh =
      (Event.textMessageStart msgId "assistant" ::
         (frags.map (Event.textMessageContent msgId) ++
          [Event.textMessageEnd msgId,
           Event.toolCallStart (fresh 0) "update_recipe",
           Event.stateDelta [⟨"replace", "/recipe", recipeToDict (builtRecipe afs ings)⟩],
           Event.toolCallEnd (fresh 0) updateSuccessResult]),
       { afterUserMsg st0 um with
           recipe := builtRecipe afs ings,
           messages := (afterUserMsg st0 um).messages ++
             [MessageB.mk "assistant" (.str ((chunkAccInit msgId).full_content ++ concatStrs frags))] }) := by
    simp only [runAgentTry, List.foldl_append, hfold, List.foldl_cons, List.foldl_nil, hstep]
    simp only [chunkAccInit, List.map_cons, List.map_nil]
    simp only [hpt]
    rw [if_pos hne]
    simp [List.append_assoc]
  constructor
  · rw [runAgent_events_eq]
    rw [show (runAgentTry (afterUserMsg st0 um)
      (.stream (frags.map textChunk ++ [updateToolChunk argStr]) none) jloads msgId fresh).1 =
        Event.textMessageStart msgId "assistant" ::
         (frags.map (Event.textMessageContent msgId) ++
          [Event.textMessageEnd msgId,
           Event.toolCallStart (fresh 0) "update_recipe",
           Event.stateDelta [⟨"replace", "/recipe", recipeToDict (builtRecipe afs ings)⟩],
           Event.toolCallEnd (fresh 0) updateSuccessResult]) from by rw [htry]]
    simp [List.append_assoc]
  · rw [runAgent_state_eq, htry]
    rfl

/-- Witness for C3: a one-fragment text stream followed by an
`update_recipe` call titled "Pasta"; the final document title is
"Pasta". -/
theorem end_to_end_event_order_witness :
    (runAgent recipeStateBDefault (.str "Haz una receta de pasta")
        (.stream (["¡Marchando!"].map textChunk ++ [updateToolChunk "args"]) none)
        (fun s => if s == "args"
          then some (.obj [("title", .str "Pasta"), ("ingredients", .arr [])])
          else none)
        "r1" "m1" (fun n => "u" ++ toString n)).2.recipe.title = .str "Pasta" :=
  ((end_to_end_event_order recipeStateBDefault (.str "Haz una receta de pasta")
      ["¡Marchando!"] "args"
      (fun s => if s == "args"
        then some (.obj [("title", .str "Pasta"), ("ingredients", .arr [])])
        else none)
      "r1" "m1" (fun n => "u" ++ toString n)
      [("title", .str "Pasta"), ("ingredients", .arr [])] []
      (by decide) (by decide) (by decide) rfl rfl).2).trans (by rfl)

/-! ## C4 -/

/-- Everything after the first TEXT_MESSAGE_START event. -/
def afterStart : List Event → List Event
  | [] => []
  | .textMessageStart _ _ :: rest => rest
  | _ :: rest => afterStart rest

/-- Everything before the first TEXT_MESSAGE_END event. -/
def untilEnd : List Event → List Event
  | [] => []
  | .textMessageEnd _ :: _ => []
  | e :: rest => e :: untilEnd rest

/-- The concatenation, in emission order, of the fragments of the
TEXT_MESSAGE_CONTENT events between the TEXT_MESSAGE_START /
TEXT_MESSAGE_END pair of an event sequence. -/
def tmcConcatBetween (evs : List Event) : String :=
  concatStrs (tmcContents (untilEnd (afterStart evs)))

def snapshotOf : Event → Option JVal
  | .stateSnapshot s => some s
  | _ => none

/-- The payloads of the STATE_SNAPSHOT events of a sequence, in order. -/
def snapshotStates (evs : List Event) : List JVal := evs.filterMap snapshotOf

theorem untilEnd_map_tmc (mid mid2 : String) (L : List String) (Z : List Event) :
    untilEnd (L.map (Event.textMessageContent mid) ++ Event.textMessageEnd mid2 :: Z) =
      L.map (Event.textMessageContent mid) := by
  induction L with
  | nil => rfl
  | cons c L ih => simp [untilEnd, ih]

theorem tmcContents_map (mid : String) (L : List String) :
    tmcContents (L.map (Event.textMessageContent mid)) = L := by
  induction L with
  | nil => rfl
  | cons c L ih => simp [tmcContents, List.filterMap_cons] at ih ⊢; exact ih

theorem snapshotStates_map_tmc (mid : String) (L : List String) :
    snapshotStates (L.map (Event.textMessageContent mid)) = [] := by
  induction L with
  | nil => rfl
  | cons c L ih => simp [snapshotStates, List.filterMap_cons, snapshotOf]

/-- The tool loop never emits a STATE_SNAPSHOT event. -/
theorem snapshotStates_procTools (jloads : String → Option JVal) (fresh : Nat → String) :
    ∀ (tcs : List ToolCallData) (st : RecipeStateB) (ctr : Nat),
      snapshotStates (procTools jloads fresh st ctr tcs).events = [] := by
  intro tcs
  induction tcs with
  | nil => intro st ctr; rfl
  | cons tc rest ih =>
      intro st ctr
      simp only [procTools]
      cases hj : jloads tc.arguments with
      | none =>
          simpa [snapshotStates, List.filterMap_cons, snapshotOf] using ih st (ctr + 1)
      | some args =>
          cases hh : handleToolCall st tc.name args with
          | error e => simp [snapshotStates, List.filterMap_cons, snapshotOf, hh]
          | ok p =>
              obtain ⟨st', result⟩ := p
              simp only [hh]
              by_cases hn : (tc.name == "update_recipe") = true <;>
                simpa [snapshotStates, List.filterMap_cons, List.filterMap_append,
                  snapshotOf, hn] using ih st' (ctr + 1)

/-- The run used as counterexample: one text fragment "Hi", then an
`update_recipe` invocation whose argument buffer decodes to the JSON
number 5 - valid JSON, so the decode guard passes, and the handler then
raises (`arguments.get` on a non-dict). -/
def c4badRun : List Event × RecipeStateB :=
  runAgent recipeStateBDefault (.str "hola")
    (.stream [textChunk "Hi", updateToolChunk "5"] none)
    (fun s => if s == "5" then some (.num 5) else none)
    "r1" "m1" (fun n => "u" ++ toString n)

/-- Counterexample to C4 as stated: this run has a complete
TEXT_MESSAGE_START / TEXT_MESSAGE_END pair whose fragment concatenation
is the non-empty "Hi", yet the final STATE_SNAPSHOT's message list
contains no assistant message at all - the run loop stores the assistant
message only after the tool loop, and the tool handler raised (the
RUN_ERROR event is in the sequence), skipping the store. -/
theorem delta_reconstruction_counterexample :
    tmcConcatBetween c4badRun.1 = "Hi" ∧
    (snapshotStates c4badRun.1).getLast? = some (stateToDict c4badRun.2) ∧
    c4badRun.2.messages = [MessageB.mk "user" (.str "hola")] ∧
    Event.runError "AttributeError: arguments.get on non-dict" ∈ c4badRun.1 :=
  ⟨rfl, rfl, rfl,
    List.Mem.tail _ (List.Mem.tail _ (List.Mem.tail _ (List.Mem.tail _
      (List.Mem.tail _ (List.Mem.tail _ (List.Mem.head _))))))⟩


/-- Extracting the between-pair concatenation from the canonical shape of
a completed run's event list. -/
theorem tmcConcatBetween_shape (runId : String) (snap : JVal) (msgId role mid2 : String)
    (L : List String) (Z : List Event) :
    tmcConcatBetween (Event.runStarted runId :: Event.stateSnapshot snap ::
        Event.textMessageStart msgId role ::
        (L.map (Event.textMessageContent msgId) ++ Event.textMessageEnd mid2 :: Z)) =
      concatStrs L := by
  unfold tmcConcatBetween
  rw [show afterStart (Event.runStarted runId :: Event.stateSnapshot snap ::
        Event.textMessageStart msgId role ::
        (L.map (Event.textMessageContent msgId) ++ Event.textMessageEnd mid2 :: Z)) =
      L.map (Event.textMessageContent msgId) ++ Event.textMessageEnd mid2 :: Z from rfl]
  rw [untilEnd_map_tmc, tmcContents_map]

/-- The last snapshot of the canonical shape is the trailing one. -/
theorem snapshotStates_shape (runId : String) (s1 : JVal) (msgId role mid2 : String)
    (L : List String) (P : List Event) (hP : snapshotStates P = [])
    (s2 : JVal) (rid2 : String) :
    (snapshotStates (Event.runStarted runId :: Event.stateSnapshot s1 ::
        Event.textMessageStart msgId role ::
        (L.map (Event.textMessageContent msgId) ++ Event.textMessageEnd mid2 ::
          (P ++ [Event.stateSnapshot s2, Event.runFinished rid2])))).getLast? = some s2 := by
  have hm := snapshotStates_map_tmc msgId L
  simp only [snapshotStates, List.filterMap_cons, List.filterMap_append, snapshotOf] at hm hP ⊢
  simp [hm, hP, snapshotOf]

/-- C4 amended: in every run that finishes without a RUN_ERROR event,
each TEXT_MESSAGE_CONTENT event carries only its incremental fragment,
and the concatenation of the fragments between the TEXT_MESSAGE_START /
TEXT_MESSAGE_END pair, when non-empty, is exactly the content of the
assistant message appended (last) to the message list of the state the
final STATE_SNAPSHOT carries.  (When an exception interrupts the run
after TEXT_MESSAGE_END - e.g. a raising tool handler - the message is
not stored; see the counterexample.) -/
theorem delta_stream_reconstruction
    (st0 : RecipeStateB) (um : JVal) (model : ModelResult)
    (jloads : String → Option JVal) (runId msgId : String) (fresh : Nat → String)
    (hnoerr : ∀ e, Event.runError e ∉ (runAgent st0 um model jloads runId msgId fresh).1)
    (hne : tmcConcatBetween (runAgent st0 um model jloads runId msgId fresh).1 ≠ "") :
    (snapshotStates (runAgent st0 um model jloads runId msgId fresh).1).getLast? =
      some (stateToDict (runAgent st0 um model jloads runId msgId fresh).2) ∧
    (runAgent st0 um model jloads runId msgId fresh).2.messages.getLast? =
      some (MessageB.mk "assistant"
        (.str (tmcConcatBetween (runAgent st0 um model jloads runId msgId fresh).1))) := by
  cases model with
  | createError e =>
      exact absurd (by rw [runAgent_events_eq]; simp [runAgentTry]) (hnoerr e)
  | stream chunks errOpt =>
      obtain ⟨L, hL, hev, hfc⟩ := chunkFold_events msgId fresh chunks (chunkAccInit msgId)
      cases errOpt with
      | some e =>
          exact absurd (by rw [runAgent_events_eq]; simp [runAgentTry]) (hnoerr e)
      | none =>
          set A := chunks.foldl (procChunk msgId fresh) (chunkAccInit msgId) with hA
          set P := procTools jloads fresh (afterUserMsg st0 um) A.ctr
            (A.tools.map Prod.snd) with hP
          cases hr : P.raised with
          | some e =>
              refine absurd ?_ (hnoerr e)
              rw [runAgent_events_eq]
              simp only [runAgentTry]
              rw [← hA, ← hP, hr]
              simp
          | none =>
              have htry1 : runAgentTry (afterUserMsg st0 um) (.stream chunks none)
                  jloads msgId fresh =
                  (A.events ++ [Event.textMessageEnd msgId] ++ P.events,
                   if A.full_content ≠ "" then
                     { P.state with messages := P.state.messages ++
                         [MessageB.mk "assistant" (.str A.full_content)] }
                   else P.state) := by
                simp only [runAgentTry]
                rw [← hA, ← hP, hr]
              have hshape : (runAgent st0 um (.stream chunks none) jloads runId msgId fresh).1 =
                  Event.runStarted runId ::
                  Event.stateSnapshot (stateToDict (afterUserMsg st0 um)) ::
                  Event.textMessageStart msgId "assistant" ::
                  (L.map (Event.textMessageContent msgId) ++ Event.textMessageEnd msgId ::
                    (P.events ++
                      [Event.stateSnapshot (stateToDict
                        (runAgent st0 um (.stream chunks none) jloads runId msgId fresh).2),
                       Event.runFinished runId])) := by
                rw [runAgent_events_eq]
                rw [show (runAgentTry (afterUserMsg st0 um) (.stream chunks none)
                    jloads msgId fresh).1 =
                    A.events ++ [Event.textMessageEnd msgId] ++ P.events from by rw [htry1]]
                rw [hev]
                simp [chunkAccInit, List.append_assoc]
              have hconcat : tmcConcatBetween
                  (runAgent st0 um (.stream chunks none) jloads runId msgId fresh).1 =
                  concatStrs L := by
                rw [hshape]
                exact tmcConcatBetween_shape runId _ msgId "assistant" msgId L _
              have hPsnap : snapshotStates P.events = [] := by
                rw [hP]
                exact snapshotStates_procTools jloads fresh (A.tools.map Prod.snd)
                  (afterUserMsg st0 um) A.ctr
              refine ⟨?_, ?_⟩
              · rw [hshape]
                exact snapshotStates_shape runId _ msgId "assistant" msgId L P.events
                  hPsnap _ runId
              · have hfullne : A.full_content ≠ "" := by
                  rw [hconcat] at hne
                  rw [hfc]
                  exact hne
                rw [runAgent_state_eq, htry1]
                show ((if A.full_content ≠ "" then
                    { P.state with messages := P.state.messages ++
                        [MessageB.mk "assistant" (.str A.full_content)] }
                   else P.state).messages).getLast? = _
                rw [if_pos hfullne]
                show (P.state.messages ++
                    [MessageB.mk "assistant" (.str A.full_content)]).getLast? = _
                rw [List.getLast?_concat, hconcat, hfc]
                rfl

/-- Witness for C4 amended: a clean one-fragment run with no tool calls. -/
theorem delta_stream_reconstruction_witness :
    (snapshotStates (runAgent recipeStateBDefault (.str "hola")
        (.stream [textChunk "Hi"] none) (fun _ => none) "r4" "m4"
        (fun n => toString n)).1).getLast? =
      some (stateToDict (runAgent recipeStateBDefault (.str "hola")
        (.stream [textChunk "Hi"] none) (fun _ => none) "r4" "m4"
        (fun n => toString n)).2) ∧
    (runAgent recipeStateBDefault (.str "hola")
        (.stream [textChunk "Hi"] none) (fun _ => none) "r4" "m4"
        (fun n => toString n)).2.messages.getLast? =
      some (MessageB.mk "assistant"
        (.str (tmcConcatBetween (runAgent recipeStateBDefault (.str "hola")
          (.stream [textChunk "Hi"] none) (fun _ => none) "r4" "m4"
          (fun n => toString n)).1))) :=
  delta_stream_reconstruction recipeStateBDefault (.str "hola")
    (.stream [textChunk "Hi"] none) (fun _ => none) "r4" "m4" (fun n => toString n)
    (by
      intro e he
      have hevs := runAgent_events_eq recipeStateBDefault (.str "hola")
        (.stream [textChunk "Hi"] none) (fun _ => none) "r4" "m4" (fun n => toString n)
      have htryevs : (runAgentTry (afterUserMsg recipeStateBDefault (.str "hola"))
          (.stream [textChunk "Hi"] none) (fun _ => none) "m4" (fun n => toString n)).1 =
          [Event.textMessageStart "m4" "assistant",
           Event.textMessageContent "m4" "Hi",
           Event.textMessageEnd "m4"] := by rfl
      rw [hevs, htryevs] at he
      simp at he)
    (by decide)
